import Mathlib

/-!
Verification of the classification/move pipeline of
`File_Auto_Classify.py` (class `ImageInfo` and `main`).

Paths are modelled as lists of components (`os.path.join` appends a
component, `os.path.dirname` drops the last one).  The filesystem is a
list of `(path, content)` pairs; directories are implicit because the
only directory operation the program performs is
`os.makedirs(..., exist_ok=True)`, which never fails.  `shutil.move` is
modelled after its CPython behaviour for a file destination: if the
source exists the file is renamed onto the destination, silently
replacing any file already there (POSIX `os.rename`, and on Windows the
`copy2` + `unlink` fallback, both overwrite); a missing source gives
`FileNotFoundError`.  The classification passes are additionally
parametrised by an arbitrary move primitive so that each `except` arm of
the source can be examined.
-/

namespace FileAutoClassify

abbrev Path := List String

/-- Index of the last `'.'` in a list of characters, if any. -/
def lastDotIdx (cs : List Char) : Option Nat :=
  ((List.range cs.length).filter (fun i => cs.get? i = some '.')).getLast?

/-- Model of `os.path.splitext` restricted to a bare filename (no path
separators): split at the last dot unless every character before it is a
dot (so `".bashrc"` and `"README"` have an empty extension). -/
def splitext (s : String) : String × String :=
  let cs := s.toList
  match lastDotIdx cs with
  | none => (s, "")
  | some d =>
    if (cs.take d).any (fun c => c ≠ '.') then
      (String.mk (cs.take d), String.mk (cs.drop d))
    else (s, "")

/-- Model of Python `str.replace(".", "")` : drop every dot. -/
def stripDots (s : String) : String :=
  String.mk (s.toList.filter (fun c => c ≠ '.'))

/-- Model of Python `str.split(" ")` (single-character separator). -/
def splitOnChar (c : Char) : List Char → List (List Char)
  | [] => [[]]
  | x :: xs =>
    if x = c then [] :: splitOnChar c xs
    else
      match splitOnChar c xs with
      | [] => [[x]]
      | g :: gs => (x :: g) :: gs

/-- Model of Python `str.replace(":", "-")` on character lists. -/
def colonToDash (cs : List Char) : List Char :=
  cs.map (fun ch => if ch = ':' then '-' else ch)

/-- One record of the `file_info` dictionary built by
`ImageInfo.get_file_info`. -/
structure FileRecord where
  name : String
  ext : String
  path : Path
  folder : Path
  deriving Repr, DecidableEq

/-- One record of the `exif_dic` dictionary built by
`ImageInfo.get_exif_metadata`. -/
structure ExifRecord where
  type : String
  date : String
  time : String
  cameraModel : String
  iso : String
  shutter : String
  aperture : String
  deriving Repr, DecidableEq

/-- The EXIF tags `exifread.process_file` can report for a file; `none`
models a tag absent from the file (where Python's `tags.get` returns
`None`). -/
structure Tags where
  dateTimeOriginal : Option String
  imageModel : Option String
  isoSpeedRatings : Option String
  exposureTime : Option String
  fNumber : Option String
  deriving Repr, DecidableEq

/-- The configuration record read from `config.json`. -/
structure Config where
  target_path : String
  classify_by_ext : Bool
  exif_mode : String
  deriving Repr, DecidableEq

/-- Python dictionary lookup on an insertion-ordered association list. -/
def plookup {κ α : Type} [DecidableEq κ] : List (κ × α) → κ → Option α
  | [], _ => none
  | e :: rest, k => if e.1 = k then some e.2 else plookup rest k

/-- Python dictionary assignment `d[k] = v`: overwrite in place if the
key exists (keeping its position), otherwise append. -/
def dictUpdate {α : Type} (d : List (String × α)) (k : String) (v : α) :
    List (String × α) :=
  if d.any (fun e => e.1 = k) then
    d.map (fun e => if e.1 = k then (k, v) else e)
  else d ++ [(k, v)]

abbrev Catalog := List (String × FileRecord)
abbrev ExifDic := List (String × ExifRecord)

/-- Keys of a Python dictionary, in order. -/
def keys {α : Type} (d : List (String × α)) : List String := d.map Prod.fst

/-- The filesystem: one `(path, content)` entry per regular file. -/
abbrev FS := List (Path × Nat)

/-- The Python exceptions relevant to this program. -/
inductive PyExn
  | attributeError
  | runtimeError
  | nameError
  | fileExistsError
  | permissionError
  | fileNotFoundError
  deriving Repr, DecidableEq

/-- Result of one `shutil.move` call. -/
inductive MoveOutcome
  | ok (fs : FS)
  | exn (e : PyExn)
  deriving Repr, DecidableEq

/-- A move primitive: what `shutil.move` returns on a given filesystem,
source and destination. -/
abbrev MovePrim := FS → Path → Path → MoveOutcome

/-- CPython `shutil.move` for a file destination: a missing source is
`FileNotFoundError`; otherwise the file is renamed onto the destination,
silently replacing any file already stored there. -/
def shutil_move : MovePrim := fun fs src dst =>
  match plookup fs src with
  | none => .exn .fileNotFoundError
  | some c => .ok ((dst, c) :: fs.filter (fun e => e.1 ≠ src ∧ e.1 ≠ dst))

/-- Inner body of the `os.walk` loop of `ImageInfo.get_file_info`: split
the filename, and record the file only when the extension part is
non-empty (`if file_expand_name:`). -/
def addFile (root : Path) (cat : Catalog) (file : String) : Catalog :=
  let fe := splitext file
  if fe.2 ≠ "" then
    dictUpdate cat file
      { name := fe.1, ext := stripDots fe.2, path := root ++ [file], folder := root }
  else cat

/-- `ImageInfo.get_file_info`, as a function of the `os.walk` output
(the list of `(root, files)` pairs the walk yields, in order). -/
def get_file_info (walk : List (Path × List String)) : Catalog :=
  walk.foldl (fun cat rf => rf.2.foldl (addFile rf.1) cat) []

/-- `ImageInfo.get_exif_metadata`: for each catalog entry whose `Name`
is not yet in `exif_dic`, read the tags and build the record.  Each
field of the Python dict literal calls `.printable` on the result of
`tags.get(...)`, which is `None` when the tag is absent, so a missing
tag raises `AttributeError` (evaluation order of the literal: Date,
Time, CameraModel, ISO, Shutter, Aperture). -/
def get_exif_metadata (tags : Path → Tags) :
    Catalog → ExifDic → Except PyExn ExifDic
  | [], dic => .ok dic
  | e :: rest, dic =>
    if (plookup dic e.2.name).isSome then get_exif_metadata tags rest dic
    else
      let t := tags e.2.path
      match t.dateTimeOriginal with
      | none => .error .attributeError
      | some dto =>
        match t.imageModel with
        | none => .error .attributeError
        | some im =>
          match t.isoSpeedRatings with
          | none => .error .attributeError
          | some iso =>
            match t.exposureTime with
            | none => .error .attributeError
            | some et =>
              match t.fNumber with
              | none => .error .attributeError
              | some fn =>
                let fe : ExifRecord :=
                  { type := e.2.ext
                    date := String.mk
                      (colonToDash ((splitOnChar ' ' dto.toList).headD []))
                    time := String.mk ((splitOnChar ' ' dto.toList).getLastD [])
                    cameraModel := im
                    iso := "ISO" ++ iso
                    shutter := et ++ "s"
                    aperture := "f" ++ fn }
                get_exif_metadata tags rest (dic ++ [(e.2.name, fe)])

/-- Mutable program state threaded through the two passes: the
`file_info` dictionary and the filesystem. -/
structure St where
  file_info : Catalog
  fs : FS
  deriving Repr, DecidableEq

/-- The `os.makedirs` + `shutil.move` + `try/except` tail of one
iteration of `ImageInfo.classify_exif`.  `env` lists the local names
bound on the execution path so far, in assignment order; the
`FileExistsError` handler evaluates the name `camera_model_folder` in
that environment and raises `NameError` when it is unbound. -/
def exif_move_step (move : MovePrim) (file : String) (rec : FileRecord)
    (dst_folder : Path) (env : List String) (st : St) : Except PyExn St :=
  let dst_path := dst_folder ++ [file]
  let env2 := env ++ ["dst_path"]
  match move st.fs rec.path dst_path with
  | .ok fs2 =>
    .ok { file_info := dictUpdate st.file_info file
            { rec with path := dst_path, folder := dst_folder }
          fs := fs2 }
  | .exn .fileExistsError =>
    if "camera_model_folder" ∈ env2 then .ok st else .error .nameError
  | .exn .permissionError => .ok st
  | .exn .fileNotFoundError => .ok st
  | .exn e => .error e

/-- The `for file in self.file_info` loop of `ImageInfo.classify_exif`,
iterating over the dictionary entries at loop entry.  A bare `raise`
with no active exception is a `RuntimeError`; the `exif_mode == ""` arm
returns from the function. -/
def classify_exif_loop (move : MovePrim) (mode : String) (exif_dic : ExifDic) :
    List (String × FileRecord) → St → Except PyExn St
  | [], st => .ok st
  | (file, rec) :: rest, st =>
    let file_name := (splitext file).1
    match plookup exif_dic file_name with
    | none => classify_exif_loop move mode exif_dic rest st
    | some ex =>
      let root_path := rec.path.dropLast
      let env0 := ["file", "file_name", "original_path", "root_path"]
      if mode = "0" then
        let camera_model := ex.cameraModel
        let dst_folder := root_path ++ [camera_model]
        match exif_move_step move file rec dst_folder
            (env0 ++ ["camera_model", "dst_folder"]) st with
        | .ok st2 => classify_exif_loop move mode exif_dic rest st2
        | .error e => .error e
      else if mode = "1" then
        let capture_date := ex.date
        let dst_folder := root_path ++ [capture_date]
        match exif_move_step move file rec dst_folder
            (env0 ++ ["capture_date", "dst_folder"]) st with
        | .ok st2 => classify_exif_loop move mode exif_dic rest st2
        | .error e => .error e
      else if mode = "" then .ok st
      else .error .runtimeError

/-- `ImageInfo.classify_exif`: an empty (falsy) mode returns
immediately, otherwise the loop runs over the catalog. -/
def classify_exif (move : MovePrim) (mode : String) (exif_dic : ExifDic)
    (st : St) : Except PyExn St :=
  if mode ≠ "" then classify_exif_loop move mode exif_dic st.file_info st
  else .ok st

/-- The `for file in self.file_info` loop of
`ImageInfo.classify_expand_name`: destination is `Folder/ext/file`; the
`try/except Exception` swallows every move failure; on success only
`Path` is written back (`Folder` is not). -/
def classify_expand_name_loop (move : MovePrim) :
    List (String × FileRecord) → St → St
  | [], st => st
  | (file, rec) :: rest, st =>
    let type_folder := rec.folder ++ [rec.ext]
    let file_new_path := type_folder ++ [file]
    match move st.fs rec.path file_new_path with
    | .ok fs2 =>
      classify_expand_name_loop move rest
        { file_info := dictUpdate st.file_info file { rec with path := file_new_path }
          fs := fs2 }
    | .exn _ => classify_expand_name_loop move rest st

/-- `ImageInfo.classify_expand_name`. -/
def classify_expand_name (move : MovePrim) (st : St) : St :=
  classify_expand_name_loop move st.file_info st

/-- `main`: build the catalog, read the EXIF metadata, then run the EXIF
pass followed — unconditionally — by the extension pass.  Note that
`main` copies `classify_by_ext` into `is_ext_classify` but never reads
it back: no branch of the program consults `cfg.classify_by_ext`. -/
def run (move : MovePrim) (cfg : Config) (walk : List (Path × List String))
    (tags : Path → Tags) (fs : FS) : Except PyExn St :=
  let file_info := get_file_info walk
  match get_exif_metadata tags file_info [] with
  | .error e => .error e
  | .ok exif_dic =>
    match classify_exif move cfg.exif_mode exif_dic { file_info := file_info, fs := fs } with
    | .error e => .error e
    | .ok st => .ok (classify_expand_name move st)

/-- A fully populated tag store, for runs where metadata reads must
succeed. -/
def fullTags : Tags :=
  { dateTimeOriginal := some "2024:05:01 10:20:30"
    imageModel := some "CameraX"
    isoSpeedRatings := some "100"
    exposureTime := some "1/200"
    fNumber := some "2.8" }

/-- A tag store whose metadata lacks the `EXIF DateTimeOriginal` tag
(the other tags are present). -/
def noTimestampTags : Tags :=
  { dateTimeOriginal := none
    imageModel := some "CameraX"
    isoSpeedRatings := some "100"
    exposureTime := some "1/200"
    fNumber := some "2.8" }

/-- Invariant of every catalog entry the program creates: the record's
path ends in the entry's key, and the key has a non-empty extension. -/
def goodEntry (e : String × FileRecord) : Prop :=
  e.2.path.getLast? = some e.1 ∧ (splitext e.1).2 ≠ ""

lemma getLast?_some_decomp {α : Type} (l : List α) (a : α) (h : l.getLast? = some a) :
    ∃ l', l = l' ++ [a] := by
  induction l with
  | nil => simp at h
  | cons x xs ih =>
    cases xs with
    | nil => simp at h; exact ⟨[], by simp [h]⟩
    | cons y ys =>
      rw [List.getLast?_cons_cons] at h
      obtain ⟨l', hl'⟩ := ih h
      exact ⟨x :: l', by simp [hl']⟩

lemma any_key_eq {α : Type} (d : List (String × α)) (k : String) :
    d.any (fun e => e.1 = k) = true ↔ k ∈ keys d := by
  simp [List.any_eq_true, keys, List.mem_map]

lemma keys_dictUpdate {α : Type} (d : List (String × α)) (k : String) (v : α) :
    keys (dictUpdate d k v) =
      if k ∈ keys d then keys d else keys d ++ [k] := by
  unfold dictUpdate
  by_cases h : k ∈ keys d
  · rw [if_pos ((any_key_eq d k).mpr h), if_pos h]
    unfold keys
    rw [List.map_map]
    apply List.map_congr_left
    intro e _
    by_cases he : e.1 = k
    · simp [he]
    · simp [he]
  · rw [if_neg (fun ha => h ((any_key_eq d k).mp ha)), if_neg h]
    simp [keys]

lemma nodup_keys_dictUpdate {α : Type} (d : List (String × α)) (k : String) (v : α)
    (hd : (keys d).Nodup) : (keys (dictUpdate d k v)).Nodup := by
  rw [keys_dictUpdate]
  by_cases h : k ∈ keys d
  · simpa [h] using hd
  · simp only [h, if_false]
    exact List.Nodup.append hd (List.nodup_singleton k) (by simp [List.disjoint_singleton, h])

lemma mem_keys_addFile (root : Path) (cat : Catalog) (f k : String) :
    k ∈ keys (addFile root cat f) ↔
      k ∈ keys cat ∨ (k = f ∧ (splitext f).2 ≠ "") := by
  unfold addFile
  by_cases hf : (splitext f).2 ≠ ""
  · rw [if_pos hf, keys_dictUpdate]
    by_cases h : f ∈ keys cat
    · rw [if_pos h]
      constructor
      · exact Or.inl
      · rintro (hk | ⟨rfl, _⟩)
        · exact hk
        · exact h
    · rw [if_neg h]
      rw [List.mem_append, List.mem_singleton]
      constructor
      · rintro (hk | rfl)
        · exact Or.inl hk
        · exact Or.inr ⟨rfl, hf⟩
      · rintro (hk | ⟨rfl, _⟩)
        · exact Or.inl hk
        · exact Or.inr rfl
  · rw [if_neg hf]
    constructor
    · exact Or.inl
    · rintro (hk | ⟨rfl, hx⟩)
      · exact hk
      · exact absurd hx hf

lemma nodup_keys_addFile (root : Path) (cat : Catalog) (f : String)
    (hd : (keys cat).Nodup) : (keys (addFile root cat f)).Nodup := by
  unfold addFile
  by_cases hf : (splitext f).2 ≠ ""
  · rw [if_pos hf]
    exact nodup_keys_dictUpdate _ _ _ hd
  · rw [if_neg hf]
    exact hd

lemma mem_keys_foldl_addFile (root : Path) (files : List String) (k : String) :
    ∀ cat : Catalog,
      k ∈ keys (files.foldl (addFile root) cat) ↔
        k ∈ keys cat ∨ (k ∈ files ∧ (splitext k).2 ≠ "") := by
  induction files with
  | nil => intro cat; simp
  | cons f fs ih =>
    intro cat
    rw [List.foldl_cons, ih, mem_keys_addFile]
    constructor
    · rintro ((hk | ⟨rfl, hp⟩) | ⟨hm, hp⟩)
      · exact Or.inl hk
      · exact Or.inr ⟨List.mem_cons_self _ _, hp⟩
      · exact Or.inr ⟨List.mem_cons_of_mem _ hm, hp⟩
    · rintro (hk | ⟨hm, hp⟩)
      · exact Or.inl (Or.inl hk)
      · rcases List.mem_cons.mp hm with rfl | hm'
        · exact Or.inl (Or.inr ⟨rfl, hp⟩)
        · exact Or.inr ⟨hm', hp⟩

lemma nodup_keys_foldl_addFile (root : Path) (files : List String) :
    ∀ cat : Catalog, (keys cat).Nodup → (keys (files.foldl (addFile root) cat)).Nodup := by
  induction files with
  | nil => intro cat h; simpa using h
  | cons f fs ih => intro cat h; exact ih _ (nodup_keys_addFile root cat f h)

lemma mem_keys_walk_foldl (walk : List (Path × List String)) (k : String) :
    ∀ cat : Catalog,
      k ∈ keys (walk.foldl (fun cat rf => rf.2.foldl (addFile rf.1) cat) cat) ↔
        k ∈ keys cat ∨ ∃ rf ∈ walk, k ∈ rf.2 ∧ (splitext k).2 ≠ "" := by
  induction walk with
  | nil => intro cat; simp
  | cons rf rest ih =>
    intro cat
    rw [List.foldl_cons, ih, mem_keys_foldl_addFile]
    constructor
    · rintro ((hk | ⟨hm, hp⟩) | ⟨rf', hrf', hm, hp⟩)
      · exact Or.inl hk
      · exact Or.inr ⟨rf, List.mem_cons_self _ _, hm, hp⟩
      · exact Or.inr ⟨rf', List.mem_cons_of_mem _ hrf', hm, hp⟩
    · rintro (hk | ⟨rf', hrf', hm, hp⟩)
      · exact Or.inl (Or.inl hk)
      · rcases List.mem_cons.mp hrf' with rfl | h'
        · exact Or.inl (Or.inr ⟨hm, hp⟩)
        · exact Or.inr ⟨rf', h', hm, hp⟩

lemma mem_keys_get_file_info (walk : List (Path × List String)) (k : String) :
    k ∈ keys (get_file_info walk) ↔
      ∃ rf ∈ walk, k ∈ rf.2 ∧ (splitext k).2 ≠ "" := by
  unfold get_file_info
  rw [mem_keys_walk_foldl]
  simp [keys]

lemma nodup_keys_get_file_info (walk : List (Path × List String)) :
    (keys (get_file_info walk)).Nodup := by
  unfold get_file_info
  have h : ∀ (w : List (Path × List String)) (cat : Catalog), (keys cat).Nodup →
      (keys (w.foldl (fun cat rf => rf.2.foldl (addFile rf.1) cat) cat)).Nodup := by
    intro w
    induction w with
    | nil => intro cat hc; simpa using hc
    | cons rf rest ih => intro cat hc; exact ih _ (nodup_keys_foldl_addFile rf.1 rf.2 cat hc)
  exact h walk [] (by simp [keys])

lemma dictUpdate_forall {α : Type} {P : String × α → Prop}
    (d : List (String × α)) (k : String) (v : α)
    (hd : ∀ e ∈ d, P e) (hv : P (k, v)) :
    ∀ e ∈ dictUpdate d k v, P e := by
  unfold dictUpdate
  split
  · intro e he
    rw [List.mem_map] at he
    obtain ⟨e0, he0, heq⟩ := he
    by_cases h : e0.1 = k
    · rw [if_pos h] at heq
      rw [← heq]
      exact hv
    · rw [if_neg h] at heq
      rw [← heq]
      exact hd e0 he0
  · intro e he
    rcases List.mem_append.mp he with h | h
    · exact hd e h
    · rw [List.mem_singleton] at h
      rw [h]
      exact hv

lemma addFile_good (root : Path) (cat : Catalog) (f : String)
    (hd : ∀ e ∈ cat, goodEntry e) : ∀ e ∈ addFile root cat f, goodEntry e := by
  unfold addFile
  by_cases hf : (splitext f).2 ≠ ""
  · rw [if_pos hf]
    exact dictUpdate_forall cat f _ hd ⟨List.getLast?_concat _, hf⟩
  · rw [if_neg hf]
    exact hd

lemma foldl_addFile_good (root : Path) (files : List String) :
    ∀ cat : Catalog, (∀ e ∈ cat, goodEntry e) →
      ∀ e ∈ files.foldl (addFile root) cat, goodEntry e := by
  induction files with
  | nil => intro cat h; simpa using h
  | cons f fs ih => intro cat h; exact ih _ (addFile_good root cat f h)

lemma get_file_info_good (walk : List (Path × List String)) :
    ∀ e ∈ get_file_info walk, goodEntry e := by
  unfold get_file_info
  have h : ∀ (w : List (Path × List String)) (cat : Catalog), (∀ e ∈ cat, goodEntry e) →
      ∀ e ∈ w.foldl (fun cat rf => rf.2.foldl (addFile rf.1) cat) cat, goodEntry e := by
    intro w
    induction w with
    | nil => intro cat hc; simpa using hc
    | cons rf rest ih => intro cat hc; exact ih _ (foldl_addFile_good rf.1 rf.2 cat hc)
  exact h walk [] (by simp)

lemma shutil_move_preserves (fs : FS) (src dst : Path) (fs2 : FS) (p : Path) (c : Nat)
    (hm : shutil_move fs src dst = .ok fs2) (hp : (p, c) ∈ fs)
    (h1 : p ≠ src) (h2 : p ≠ dst) : (p, c) ∈ fs2 := by
  unfold shutil_move at hm
  cases hl : plookup fs src with
  | none => rw [hl] at hm; exact absurd hm (by simp)
  | some c' =>
    rw [hl] at hm
    have hfs2 : fs2 = (dst, c') :: fs.filter (fun e => e.1 ≠ src ∧ e.1 ≠ dst) := by
      injection hm with h
      exact h.symm
    rw [hfs2]
    apply List.mem_cons_of_mem
    exact List.mem_filter.mpr ⟨hp, by simp [h1, h2]⟩

lemma ne_of_getLast?_ne {p q : Path} {f g : String}
    (hp : p.getLast? = some f) (hq : q.getLast? = some g) (h : f ≠ g) : p ≠ q := by
  intro he
  rw [he, hq] at hp
  exact h (Option.some.inj hp).symm

lemma exif_move_step_shutil_cases (file : String) (rec : FileRecord)
    (dfold : Path) (env : List String) (st st' : St)
    (h : exif_move_step shutil_move file rec dfold env st = .ok st') :
    st' = st ∨
      (st'.file_info = dictUpdate st.file_info file
          { rec with path := dfold ++ [file], folder := dfold } ∧
        shutil_move st.fs rec.path (dfold ++ [file]) = .ok st'.fs) := by
  simp only [exif_move_step] at h
  cases hm : shutil_move st.fs rec.path (dfold ++ [file]) with
  | ok fs2 =>
    rw [hm] at h
    simp only [Except.ok.injEq] at h
    rw [← h]
    exact Or.inr ⟨rfl, rfl⟩
  | exn e =>
    rw [hm] at h
    cases e with
    | fileExistsError =>
      by_cases henv : "camera_model_folder" ∈ env ++ ["dst_path"]
      · rw [if_pos henv] at h
        simp only [Except.ok.injEq] at h
        exact Or.inl h.symm
      · rw [if_neg henv] at h
        exact absurd h (by simp)
    | permissionError =>
      simp only [Except.ok.injEq] at h
      exact Or.inl h.symm
    | fileNotFoundError =>
      simp only [Except.ok.injEq] at h
      exact Or.inl h.symm
    | attributeError => exact absurd h (by simp)
    | runtimeError => exact absurd h (by simp)
    | nameError => exact absurd h (by simp)



lemma classify_exif_loop_shutil_pres (mode : String) (dic : ExifDic) :
    ∀ (entries : List (String × FileRecord)) (st st' : St),
      (∀ e ∈ entries, goodEntry e) →
      (∀ e ∈ st.file_info, goodEntry e) →
      classify_exif_loop shutil_move mode dic entries st = .ok st' →
      (∀ e ∈ st'.file_info, goodEntry e) ∧
      (∀ (p : Path) (c : Nat) (f : String), (p, c) ∈ st.fs → p.getLast? = some f →
        (splitext f).2 = "" → (p, c) ∈ st'.fs) := by
  intro entries
  induction entries with
  | nil =>
    intro st st' _ hst h
    simp only [classify_exif_loop, Except.ok.injEq] at h
    rw [← h]
    exact ⟨hst, fun p c f hp _ _ => hp⟩
  | cons e rest ih =>
    intro st st' hent hst h
    obtain ⟨file, rec⟩ := e
    have hhead : goodEntry (file, rec) := hent _ (List.mem_cons_self _ _)
    have hrest : ∀ e2 ∈ rest, goodEntry e2 := fun e2 he => hent e2 (List.mem_cons_of_mem _ he)
    simp only [classify_exif_loop] at h
    cases hl : plookup dic (splitext file).1 with
    | none =>
      simp only [hl] at h
      exact ih st st' hrest hst h
    | some ex =>
      simp only [hl] at h
      split at h
      · split at h
        · rename_i st2 hs
          rcases exif_move_step_shutil_cases _ _ _ _ _ _ hs with heq | ⟨hinfo, hmv⟩
          · rw [heq] at h
            exact ih st st' hrest hst h
          · have hst2info : ∀ e2 ∈ st2.file_info, goodEntry e2 := by
              rw [hinfo]
              exact dictUpdate_forall _ _ _ hst ⟨List.getLast?_concat _, hhead.2⟩
            obtain ⟨hinfo', hfs'⟩ := ih st2 st' hrest hst2info h
            refine ⟨hinfo', fun p c f hp hpl hpe => hfs' p c f ?_ hpl hpe⟩
            exact shutil_move_preserves st.fs rec.path _ st2.fs p c hmv hp
              (ne_of_getLast?_ne hpl hhead.1 (fun hfe => hhead.2 (hfe ▸ hpe)))
              (ne_of_getLast?_ne hpl (List.getLast?_concat _) (fun hfe => hhead.2 (hfe ▸ hpe)))
        · exact absurd h (by simp)
      · split at h
        · split at h
          · rename_i st2 hs
            rcases exif_move_step_shutil_cases _ _ _ _ _ _ hs with heq | ⟨hinfo, hmv⟩
            · rw [heq] at h
              exact ih st st' hrest hst h
            · have hst2info : ∀ e2 ∈ st2.file_info, goodEntry e2 := by
                rw [hinfo]
                exact dictUpdate_forall _ _ _ hst ⟨List.getLast?_concat _, hhead.2⟩
              obtain ⟨hinfo', hfs'⟩ := ih st2 st' hrest hst2info h
              refine ⟨hinfo', fun p c f hp hpl hpe => hfs' p c f ?_ hpl hpe⟩
              exact shutil_move_preserves st.fs rec.path _ st2.fs p c hmv hp
                (ne_of_getLast?_ne hpl hhead.1 (fun hfe => hhead.2 (hfe ▸ hpe)))
                (ne_of_getLast?_ne hpl (List.getLast?_concat _) (fun hfe => hhead.2 (hfe ▸ hpe)))
          · exact absurd h (by simp)
        · split at h
          · simp only [Except.ok.injEq] at h
            rw [← h]
            exact ⟨hst, fun p c f hp _ _ => hp⟩
          · exact absurd h (by simp)

lemma classify_expand_name_loop_pres :
    ∀ (entries : List (String × FileRecord)) (st : St),
      (∀ e ∈ entries, goodEntry e) →
      ∀ (p : Path) (c : Nat) (f : String), (p, c) ∈ st.fs → p.getLast? = some f →
        (splitext f).2 = "" →
        (p, c) ∈ (classify_expand_name_loop shutil_move entries st).fs := by
  intro entries
  induction entries with
  | nil =>
    intro st _ p c f hp _ _
    simpa only [classify_expand_name_loop] using hp
  | cons e rest ih =>
    intro st hent p c f hp hpl hpe
    obtain ⟨file, rec⟩ := e
    have hhead : goodEntry (file, rec) := hent _ (List.mem_cons_self _ _)
    have hrest : ∀ e2 ∈ rest, goodEntry e2 := fun e2 he => hent e2 (List.mem_cons_of_mem _ he)
    simp only [classify_expand_name_loop]
    cases hm : shutil_move st.fs rec.path (rec.folder ++ [rec.ext] ++ [file]) with
    | ok fs2 =>
      apply ih _ hrest p c f ?_ hpl hpe
      exact shutil_move_preserves st.fs rec.path _ fs2 p c hm hp
        (ne_of_getLast?_ne hpl hhead.1 (fun hfe => hhead.2 (hfe ▸ hpe)))
        (ne_of_getLast?_ne hpl (List.getLast?_concat _) (fun hfe => hhead.2 (hfe ▸ hpe)))
    | exn e2 => exact ih _ hrest p c f hp hpl hpe

lemma classify_exif_loop_raise (move : MovePrim) (mode : String) (dic : ExifDic)
    (hm0 : mode ≠ "0") (hm1 : mode ≠ "1") (hme : mode ≠ "") :
    ∀ (entries : List (String × FileRecord)) (st : St),
      (∃ e ∈ entries, (plookup dic (splitext e.1).1).isSome) →
      classify_exif_loop move mode dic entries st = .error .runtimeError := by
  intro entries
  induction entries with
  | nil => intro st h; simp at h
  | cons e rest ih =>
    intro st h
    obtain ⟨file, rec⟩ := e
    simp only [classify_exif_loop]
    cases hl : plookup dic (splitext file).1 with
    | none =>
      apply ih
      rcases h with ⟨e', he', hsome⟩
      rcases List.mem_cons.mp he' with h1 | h1
      · rw [h1] at hsome; rw [hl] at hsome; simp at hsome
      · exact ⟨e', h1, hsome⟩
    | some ex => simp [hm0, hm1, hme]

/-- C1: the spec says the extension pass runs iff `classifyByExtension`
is true; in the code `main` calls `classify_expand_name()`
unconditionally and never reads `is_ext_classify`, so with the flag
false a file is still moved into an extension-named folder (first
conjunct: a concrete run with the flag false moves `r/a.jpg` to
`r/jpg/a.jpg`), and the whole run is invariant under the flag (second
conjunct). -/
theorem C1_extension_pass_ignores_flag :
    (run shutil_move { target_path := "r", classify_by_ext := false, exif_mode := "" }
        [(["r"], ["a.jpg"])] (fun _ => fullTags) [(["r", "a.jpg"], 1)] =
      .ok { file_info := [("a.jpg",
              { name := "a", ext := "jpg", path := ["r", "jpg", "a.jpg"], folder := ["r"] })],
            fs := [(["r", "jpg", "a.jpg"], 1)] }) ∧
    (∀ (move : MovePrim) (tp : String) (b b' : Bool) (m : String)
        (walk : List (Path × List String)) (tags : Path → Tags) (fs : FS),
      run move { target_path := tp, classify_by_ext := b, exif_mode := m } walk tags fs =
        run move { target_path := tp, classify_by_ext := b', exif_mode := m } walk tags fs) :=
  ⟨by rfl, fun _ _ _ _ _ _ _ _ => rfl⟩

/-- C2: for a cataloged file whose metadata store lacks the
capture-timestamp tag, `get_exif_metadata` evaluates
`tags.get('EXIF DateTimeOriginal').printable` on `None`, an unhandled
`AttributeError`: the run aborts before any classification pass instead
of yielding a typed "unavailable" result and falling through to
extension-only classification. -/
theorem C2_missing_timestamp_aborts_run :
    (run shutil_move { target_path := "r", classify_by_ext := true, exif_mode := "" }
        [(["r"], ["a.jpg"])] (fun _ => noTimestampTags) [(["r", "a.jpg"], 1)] =
      .error .attributeError) ∧
    (get_exif_metadata (fun _ => noTimestampTags)
        (get_file_info [(["r"], ["a.jpg"])]) [] = .error .attributeError) :=
  ⟨by rfl, by rfl⟩

/-- C3: when a file's destination path is already occupied on disk (here
`r/jpg/x.jpg` with content `2`, not cataloged because the walk skipped
the unreadable directory `r/jpg`), the move is not rejected with
`AlreadyExists`: `shutil.move` renames the source onto the destination,
silently replacing the occupying file — after the run the destination
holds content `1` and the entry with content `2` is gone. -/
theorem C3_occupied_destination_overwritten :
    (run shutil_move { target_path := "r", classify_by_ext := true, exif_mode := "" }
        [(["r"], ["x.jpg"])] (fun _ => fullTags)
        [(["r", "x.jpg"], 1), (["r", "jpg", "x.jpg"], 2)] =
      .ok { file_info := [("x.jpg",
              { name := "x", ext := "jpg", path := ["r", "jpg", "x.jpg"], folder := ["r"] })],
            fs := [(["r", "jpg", "x.jpg"], 1)] }) ∧
    ((["r", "jpg", "x.jpg"], 2) ∈
        ([(["r", "x.jpg"], 1), (["r", "jpg", "x.jpg"], 2)] : FS)) ∧
    ((["r", "jpg", "x.jpg"], 2) ∉ ([(["r", "jpg", "x.jpg"], 1)] : FS)) :=
  ⟨by rfl, by decide, by decide⟩

/-- C4 counterexample: classifying is not idempotent.  The first run
moves `r/x.jpg` to `r/jpg/x.jpg`; a second run over the resulting tree
moves the file again, creating the nested `r/jpg/jpg/` folder — not a
no-op. -/
theorem C4_second_run_moves_again :
    (run shutil_move { target_path := "r", classify_by_ext := true, exif_mode := "" }
        [(["r"], ["x.jpg"])] (fun _ => fullTags) [(["r", "x.jpg"], 5)] =
      .ok { file_info := [("x.jpg",
              { name := "x", ext := "jpg", path := ["r", "jpg", "x.jpg"], folder := ["r"] })],
            fs := [(["r", "jpg", "x.jpg"], 5)] }) ∧
    (run shutil_move { target_path := "r", classify_by_ext := true, exif_mode := "" }
        [(["r"], []), (["r", "jpg"], ["x.jpg"])] (fun _ => fullTags)
        [(["r", "jpg", "x.jpg"], 5)] =
      .ok { file_info := [("x.jpg",
              { name := "x", ext := "jpg", path := ["r", "jpg", "jpg", "x.jpg"],
                folder := ["r", "jpg"] })],
            fs := [(["r", "jpg", "jpg", "x.jpg"], 5)] }) ∧
    ([(["r", "jpg", "jpg", "x.jpg"], 5)] : FS) ≠ [(["r", "jpg", "x.jpg"], 5)] :=
  ⟨by rfl, by rfl, by decide⟩

/-- C4 amended: the extension pass is not idempotent.  For a record
already classified (its folder's last component equals its extension),
the pass still computes destination `Folder/ext/file` and moves the
file: the new path differs from the old one and carries a second `ext`
component (`.../ext/ext/file`), so a second run over a classified tree
moves every file again. -/
theorem C4_reclassify_nests_ext (file : String) (rec : FileRecord) (c : Nat)
    (hleaf : rec.folder.getLast? = some rec.ext)
    (hpath : rec.path = rec.folder ++ [file]) :
    (classify_expand_name shutil_move { file_info := [(file, rec)], fs := [(rec.path, c)] } =
      { file_info := [(file, { rec with path := rec.folder ++ [rec.ext, file] })]
        fs := [(rec.folder ++ [rec.ext, file], c)] }) ∧
    rec.path ≠ rec.folder ++ [rec.ext, file] ∧
    ∃ f0, rec.folder = f0 ++ [rec.ext] ∧
      rec.folder ++ [rec.ext, file] = f0 ++ [rec.ext, rec.ext, file] := by
  refine ⟨?_, ?_, ?_⟩
  · simp [classify_expand_name, classify_expand_name_loop, shutil_move, plookup, dictUpdate]
  · rw [hpath]
    intro h
    have hl := congrArg List.length h
    simp at hl
  · obtain ⟨f0, hf0⟩ := getLast?_some_decomp rec.folder rec.ext hleaf
    exact ⟨f0, hf0, by simp [hf0]⟩

/-- C4 witness: a file already at `r/jpg/x.jpg` (folder `r/jpg`, ext
`jpg`) is moved again, to `r/jpg/jpg/x.jpg`. -/
theorem C4_reclassify_nests_ext_witness :
    (classify_expand_name shutil_move
        { file_info := [("x.jpg",
            { name := "x", ext := "jpg", path := ["r", "jpg", "x.jpg"],
              folder := ["r", "jpg"] })]
          fs := [(["r", "jpg", "x.jpg"], 5)] } =
      { file_info := [("x.jpg",
          { name := "x", ext := "jpg", path := ["r", "jpg", "jpg", "x.jpg"],
            folder := ["r", "jpg"] })]
        fs := [(["r", "jpg", "jpg", "x.jpg"], 5)] }) ∧
    (["r", "jpg", "x.jpg"] : Path) ≠ ["r", "jpg", "jpg", "x.jpg"] ∧
    ∃ f0, (["r", "jpg"] : Path) = f0 ++ ["jpg"] ∧
      (["r", "jpg", "jpg", "x.jpg"] : Path) = f0 ++ ["jpg", "jpg", "x.jpg"] :=
  C4_reclassify_nests_ext "x.jpg"
    { name := "x", ext := "jpg", path := ["r", "jpg", "x.jpg"], folder := ["r", "jpg"] }
    5 (by rfl) (by rfl)

/-- C5: priority law.  For a file with an ExifRecord, under EXIF mode
"0" or "1", the EXIF pass followed by the extension pass produces final
path `originalFolder/<exif segment>/<ext>/<file>` (and the filesystem
agrees): the EXIF-derived segment (camera model for mode "0", capture
date for mode "1") is the outermost of the two new components. -/
theorem C5_exif_outermost (file nm ext : String) (root : Path) (exDic : ExifDic)
    (ex : ExifRecord) (mode : String) (c : Nat)
    (hmode : mode = "0" ∨ mode = "1")
    (hex : plookup exDic (splitext file).1 = some ex) :
    ∃ st1,
      classify_exif shutil_move mode exDic
          { file_info := [(file,
              { name := nm, ext := ext, path := root ++ [file], folder := root })]
            fs := [(root ++ [file], c)] } = .ok st1 ∧
      classify_expand_name shutil_move st1 =
        { file_info := [(file,
            { name := nm, ext := ext,
              path := root ++ [(if mode = "0" then ex.cameraModel else ex.date), ext, file],
              folder := root ++ [if mode = "0" then ex.cameraModel else ex.date] })]
          fs := [(root ++ [(if mode = "0" then ex.cameraModel else ex.date), ext, file], c)] } := by
  rcases hmode with h | h
  · subst h
    refine ⟨⟨[(file, ⟨nm, ext, root ++ [ex.cameraModel, file], root ++ [ex.cameraModel]⟩)],
        [(root ++ [ex.cameraModel, file], c)]⟩, ?_, ?_⟩
    · simp [classify_exif, classify_exif_loop, exif_move_step, shutil_move, plookup,
        dictUpdate, hex]
    · simp [classify_expand_name, classify_expand_name_loop, shutil_move, plookup, dictUpdate]
  · subst h
    refine ⟨⟨[(file, ⟨nm, ext, root ++ [ex.date, file], root ++ [ex.date]⟩)],
        [(root ++ [ex.date, file], c)]⟩, ?_, ?_⟩
    · simp [classify_exif, classify_exif_loop, exif_move_step, shutil_move, plookup,
        dictUpdate, hex]
    · simp [classify_expand_name, classify_expand_name_loop, shutil_move, plookup, dictUpdate]

/-- C5 witness: a concrete mode-"1" run lands `photo.jpg` at
`r/2024-05-01/jpg/photo.jpg`. -/
theorem C5_exif_outermost_witness :
    ∃ st1,
      classify_exif shutil_move "1"
          [("photo", { type := "jpg", date := "2024-05-01", time := "10:20:30",
                       cameraModel := "CameraX", iso := "ISO100", shutter := "1/200s",
                       aperture := "f2.8" })]
          { file_info := [("photo.jpg",
              { name := "photo", ext := "jpg", path := ["r", "photo.jpg"], folder := ["r"] })]
            fs := [(["r", "photo.jpg"], 3)] } = .ok st1 ∧
      classify_expand_name shutil_move st1 =
        { file_info := [("photo.jpg",
            { name := "photo", ext := "jpg",
              path := ["r", "2024-05-01", "jpg", "photo.jpg"],
              folder := ["r", "2024-05-01"] })]
          fs := [(["r", "2024-05-01", "jpg", "photo.jpg"], 3)] } :=
  C5_exif_outermost "photo.jpg" "photo" "jpg" ["r"]
    [("photo", { type := "jpg", date := "2024-05-01", time := "10:20:30",
                 cameraModel := "CameraX", iso := "ISO100", shutter := "1/200s",
                 aperture := "f2.8" })]
    { type := "jpg", date := "2024-05-01", time := "10:20:30",
      cameraModel := "CameraX", iso := "ISO100", shutter := "1/200s", aperture := "f2.8" }
    "1" 3 (Or.inr rfl) (by rfl)

/-- C6 counterexample: with `exif_mode = "2"` (unsupported) but no
cataloged file carrying an ExifRecord, the dispatch is never reached:
the run completes normally instead of aborting. -/
theorem C6_unsupported_mode_empty_run_continues :
    run shutil_move { target_path := "r", classify_by_ext := true, exif_mode := "2" }
        [(["r"], [])] (fun _ => fullTags) [] =
      .ok { file_info := [], fs := [] } := by
  rfl

/-- C6 amended: an unsupported `exif_mode` (neither "0", "1" nor "")
reaching the per-file dispatch aborts the run via the bare `raise`
(a RuntimeError), provided at least one cataloged file's base name has
an ExifRecord; with no such file the dispatch is never reached and the
run continues (see the counterexample). -/
theorem C6_unsupported_mode_aborts (move : MovePrim) (cfg : Config)
    (walk : List (Path × List String)) (tags : Path → Tags) (fs : FS) (dic : ExifDic)
    (hm0 : cfg.exif_mode ≠ "0") (hm1 : cfg.exif_mode ≠ "1") (hme : cfg.exif_mode ≠ "")
    (hdic : get_exif_metadata tags (get_file_info walk) [] = .ok dic)
    (hex : ∃ e ∈ get_file_info walk, (plookup dic (splitext e.1).1).isSome) :
    run move cfg walk tags fs = .error .runtimeError := by
  simp only [run, hdic]
  have hloop := classify_exif_loop_raise move cfg.exif_mode dic hm0 hm1 hme
    (get_file_info walk) { file_info := get_file_info walk, fs := fs } hex
  simp [classify_exif, hme, hloop]

/-- C6 witness: a concrete run with mode "2" and one cataloged file
carrying EXIF data aborts with RuntimeError. -/
theorem C6_unsupported_mode_aborts_witness :
    run shutil_move { target_path := "r", classify_by_ext := true, exif_mode := "2" }
        [(["r"], ["x.jpg"])] (fun _ => fullTags) [(["r", "x.jpg"], 1)] =
      .error .runtimeError :=
  C6_unsupported_mode_aborts shutil_move
    { target_path := "r", classify_by_ext := true, exif_mode := "2" }
    [(["r"], ["x.jpg"])] (fun _ => fullTags) [(["r", "x.jpg"], 1)]
    [("x", { type := "jpg", date := "2024-05-01", time := "10:20:30",
             cameraModel := "CameraX", iso := "ISO100", shutter := "1/200s",
             aperture := "f2.8" })]
    (by decide) (by decide) (by decide) (by rfl)
    ⟨("x.jpg", { name := "x", ext := "jpg", path := ["r", "x.jpg"], folder := ["r"] }),
      by decide, by rfl⟩

/-- C7 counterexample: two discovered files share the full filename
`x.jpg` in different subfolders; the catalog (a dict keyed by the full
filename) holds a single record — the last-walked occurrence — not one
record per discovered file. -/
theorem C7_shared_filename_single_record :
    get_file_info [(["r", "a"], ["x.jpg"]), (["r", "b"], ["x.jpg"])] =
      [("x.jpg", { name := "x", ext := "jpg", path := ["r", "b", "x.jpg"],
                   folder := ["r", "b"] })] ∧
    (get_file_info [(["r", "a"], ["x.jpg"]), (["r", "b"], ["x.jpg"])]).length = 1 := by
  constructor
  · rfl
  · rfl

/-- C7 amended: the catalog holds exactly one record per distinct
discovered filename with a non-empty extension: its keys have no
duplicates, and a string is a key iff some walked directory lists it as
a file and its extension part is non-empty.  Files in different folders
sharing a full filename therefore share a single record. -/
theorem C7_catalog_one_record_per_filename (walk : List (Path × List String)) :
    (keys (get_file_info walk)).Nodup ∧
    ∀ k : String, k ∈ keys (get_file_info walk) ↔
      ∃ rf ∈ walk, k ∈ rf.2 ∧ (splitext k).2 ≠ "" :=
  ⟨nodup_keys_get_file_info walk, fun k => mem_keys_get_file_info walk k⟩

/-- C8 counterexample: a successful move of the extension pass updates
only the record's `Path`; `Folder` keeps its pre-move value `["r"]`,
which is no longer the containing directory of the new path
`r/jpg/a.jpg`. -/
theorem C8_expand_name_folder_stale :
    (classify_expand_name shutil_move
        { file_info := [("a.jpg",
            { name := "a", ext := "jpg", path := ["r", "a.jpg"], folder := ["r"] })]
          fs := [(["r", "a.jpg"], 1)] } =
      { file_info := [("a.jpg",
          { name := "a", ext := "jpg", path := ["r", "jpg", "a.jpg"], folder := ["r"] })]
        fs := [(["r", "jpg", "a.jpg"], 1)] }) ∧
    (["r"] : Path) ≠ (["r", "jpg", "a.jpg"] : Path).dropLast :=
  ⟨by rfl, by decide⟩

/-- C8 amended: update asymmetry.  A successful EXIF-pass move updates
both `Path` and `Folder`, and the new folder is the containing directory
of the new path; a successful extension-pass move updates only `Path`,
and the untouched `Folder` differs from the containing directory of the
new path. -/
theorem C8_folder_update_asymmetry (file : String) (rec : FileRecord) (c : Nat) :
    (∀ (dfold : Path) (env : List String) (st : St) (fs2 : FS),
      shutil_move st.fs rec.path (dfold ++ [file]) = .ok fs2 →
      exif_move_step shutil_move file rec dfold env st =
        .ok { file_info := dictUpdate st.file_info file
                { rec with path := dfold ++ [file], folder := dfold }
              fs := fs2 } ∧
      dfold = (dfold ++ [file]).dropLast) ∧
    (classify_expand_name shutil_move { file_info := [(file, rec)], fs := [(rec.path, c)] } =
      { file_info := [(file, { rec with path := rec.folder ++ [rec.ext, file] })]
        fs := [(rec.folder ++ [rec.ext, file], c)] }) ∧
    ({ rec with path := rec.folder ++ [rec.ext, file] } : FileRecord).folder ≠
      ({ rec with path := rec.folder ++ [rec.ext, file] } : FileRecord).path.dropLast := by
  refine ⟨?_, ?_, ?_⟩
  · intro dfold env st fs2 hmv
    constructor
    · simp [exif_move_step, hmv]
    · rw [List.dropLast_concat]
  · simp [classify_expand_name, classify_expand_name_loop, shutil_move, plookup, dictUpdate]
  · show rec.folder ≠ (rec.folder ++ [rec.ext, file]).dropLast
    rw [show rec.folder ++ [rec.ext, file] = (rec.folder ++ [rec.ext]) ++ [file] by simp,
      List.dropLast_concat]
    intro h
    have hl := congrArg List.length h
    simp at hl

/-- C8 witness: a concrete EXIF-pass move updates both fields, and a
concrete extension-pass move leaves `Folder` stale. -/
theorem C8_folder_update_asymmetry_witness :
    (exif_move_step shutil_move "a.jpg"
        { name := "a", ext := "jpg", path := ["r", "a.jpg"], folder := ["r"] }
        ["r", "D"] [] { file_info := [], fs := [(["r", "a.jpg"], 9)] } =
      .ok { file_info := [("a.jpg",
              { name := "a", ext := "jpg", path := ["r", "D", "a.jpg"], folder := ["r", "D"] })]
            fs := [(["r", "D", "a.jpg"], 9)] } ∧
      (["r", "D"] : Path) = (["r", "D", "a.jpg"] : Path).dropLast) ∧
    (classify_expand_name shutil_move
        { file_info := [("a.jpg",
            { name := "a", ext := "jpg", path := ["r", "a.jpg"], folder := ["r"] })]
          fs := [(["r", "a.jpg"], 1)] } =
      { file_info := [("a.jpg",
          { name := "a", ext := "jpg", path := ["r", "jpg", "a.jpg"], folder := ["r"] })]
        fs := [(["r", "jpg", "a.jpg"], 1)] }) ∧
    (["r"] : Path) ≠ (["r", "jpg", "a.jpg"] : Path).dropLast := by
  have h := C8_folder_update_asymmetry "a.jpg"
    { name := "a", ext := "jpg", path := ["r", "a.jpg"], folder := ["r"] } 1
  exact ⟨h.1 ["r", "D"] [] { file_info := [], fs := [(["r", "a.jpg"], 9)] }
    [(["r", "D", "a.jpg"], 9)] (by rfl), h.2.1, h.2.2⟩

/-- C9: a regular file discovered during the walk whose name has an
empty extension is excluded from the catalog (its name is not a key),
and any completed run leaves it untouched: its `(path, content)` entry
is still present in the final filesystem. -/
theorem C9_empty_extension_excluded (cfg : Config) (walk : List (Path × List String))
    (tags : Path → Tags) (fs : FS) (p : Path) (c : Nat) (f : String) (st : St)
    (hlast : p.getLast? = some f) (hext : (splitext f).2 = "") (hp : (p, c) ∈ fs)
    (hrun : run shutil_move cfg walk tags fs = .ok st) :
    f ∉ keys (get_file_info walk) ∧ (p, c) ∈ st.fs := by
  constructor
  · intro hf
    obtain ⟨rf, _, _, hne⟩ := (mem_keys_get_file_info walk f).mp hf
    exact hne hext
  · simp only [run] at hrun
    cases hd : get_exif_metadata tags (get_file_info walk) [] with
    | error e =>
      rw [hd] at hrun
      simp at hrun
    | ok dic =>
      rw [hd] at hrun
      cases hce : classify_exif shutil_move cfg.exif_mode dic
          { file_info := get_file_info walk, fs := fs } with
      | error e =>
        simp only [hce] at hrun
        exact absurd hrun (by simp)
      | ok st1 =>
        simp only [hce, Except.ok.injEq] at hrun
        have hgood := get_file_info_good walk
        have hst1 : (∀ e2 ∈ st1.file_info, goodEntry e2) ∧ (p, c) ∈ st1.fs := by
          simp only [classify_exif] at hce
          by_cases hm : cfg.exif_mode = ""
          · rw [if_neg (by simp [hm])] at hce
            simp only [Except.ok.injEq] at hce
            rw [← hce]
            exact ⟨hgood, hp⟩
          · rw [if_pos hm] at hce
            obtain ⟨hi, hf'⟩ := classify_exif_loop_shutil_pres cfg.exif_mode dic
              (get_file_info walk) { file_info := get_file_info walk, fs := fs } st1
              hgood hgood hce
            exact ⟨hi, hf' p c f hp hlast hext⟩
        rw [← hrun]
        exact classify_expand_name_loop_pres st1.file_info st1 hst1.1 p c f hst1.2 hlast hext

/-- C9 witness: in a run over `r/README` and `r/a.jpg`, the
extensionless `README` is not cataloged and keeps its entry while
`a.jpg` is classified. -/
theorem C9_empty_extension_excluded_witness :
    "README" ∉ keys (get_file_info [(["r"], ["README", "a.jpg"])]) ∧
    ((["r", "README"] : Path), 7) ∈
      ({ file_info := [("a.jpg",
           { name := "a", ext := "jpg", path := ["r", "jpg", "a.jpg"], folder := ["r"] })]
         fs := [(["r", "jpg", "a.jpg"], 1), (["r", "README"], 7)] } : St).fs :=
  C9_empty_extension_excluded
    { target_path := "r", classify_by_ext := true, exif_mode := "" }
    [(["r"], ["README", "a.jpg"])] (fun _ => fullTags)
    [(["r", "README"], 7), (["r", "a.jpg"], 1)] ["r", "README"] 7 "README"
    { file_info := [("a.jpg",
        { name := "a", ext := "jpg", path := ["r", "jpg", "a.jpg"], folder := ["r"] })]
      fs := [(["r", "jpg", "a.jpg"], 1), (["r", "README"], 7)] }
    (by rfl) (by rfl) (by decide) (by rfl)

/-- C10: the name `camera_model_folder` consulted by the
`FileExistsError` handler is bound on no execution path of
`classify_exif` (mode "0" binds `camera_model`, mode "1" binds
`capture_date`), so whenever the move raises `FileExistsError` the
handler's lookup fails and the whole call aborts with `NameError`
instead of printing the message and continuing. -/
theorem C10_file_exists_handler_name_error (move : MovePrim) (mode : String)
    (dic : ExifDic) (file : String) (rec : FileRecord) (ex : ExifRecord)
    (rest : List (String × FileRecord)) (st : St)
    (hentries : st.file_info = (file, rec) :: rest)
    (hex : plookup dic (splitext file).1 = some ex)
    (hmode : mode = "0" ∨ mode = "1")
    (hmove : move st.fs rec.path
        (rec.path.dropLast ++ [if mode = "0" then ex.cameraModel else ex.date] ++ [file]) =
      .exn .fileExistsError) :
    classify_exif move mode dic st = .error .nameError := by
  rcases hmode with h | h <;> subst h <;> simp at hmove <;>
    simp [classify_exif, classify_exif_loop, exif_move_step, hentries, hex, hmove]

/-- C10 witness: with a move primitive that raises `FileExistsError`,
a concrete `classify_exif` call aborts with `NameError`. -/
theorem C10_file_exists_handler_name_error_witness :
    classify_exif (fun _ _ _ => .exn .fileExistsError) "0"
        [("x", { type := "jpg", date := "2024-05-01", time := "10:20:30",
                 cameraModel := "CameraX", iso := "ISO100", shutter := "1/200s",
                 aperture := "f2.8" })]
        { file_info := [("x.jpg",
            { name := "x", ext := "jpg", path := ["r", "x.jpg"], folder := ["r"] })]
          fs := [(["r", "x.jpg"], 1)] } = .error .nameError :=
  C10_file_exists_handler_name_error (fun _ _ _ => .exn .fileExistsError) "0"
    [("x", { type := "jpg", date := "2024-05-01", time := "10:20:30",
             cameraModel := "CameraX", iso := "ISO100", shutter := "1/200s",
             aperture := "f2.8" })]
    "x.jpg" { name := "x", ext := "jpg", path := ["r", "x.jpg"], folder := ["r"] }
    { type := "jpg", date := "2024-05-01", time := "10:20:30",
      cameraModel := "CameraX", iso := "ISO100", shutter := "1/200s", aperture := "f2.8" }
    [] _ rfl (by rfl) (Or.inl rfl) (by rfl)

end FileAutoClassify
